import Mathlib

/-!
Verification of the filizer-cli scan pipeline (`src/main.py`).

The spec's CORE is `process_directory` together with its helpers `get_md5`,
`get_retrying_session` and `execute_action`.  We shallowly embed that
pipeline: the outside world (file contents, registry responses, operator
confirmations, filesystem races) is supplied as an environment per visited
file, and the loop body is translated into a per-file *delta* (counter
increments, issued requests, filesystem mutations) that is applied to the
accumulating scan state.  The Python body only ever appends to traces and
increments counters, so this delta presentation is an exact translation of
lines 147-227 of `src/main.py`.
-/

namespace Filizer

/-- One JSON object returned by the registry's validation query
(`full_path`, `action`, `action_args`); absent keys are `none`
(the source reads them with `dict.get`). -/
structure RegItem where
  full_path : Option String := none
  action : Option String := none
  action_args : Option String := none
deriving DecidableEq

/-- The parsed body of a validation response: a JSON array of match
objects, or some other JSON value (Python's `case (200, list(items))`
pattern distinguishes exactly these). -/
inductive JsonBody where
  | arr (items : List RegItem)
  | nonArray
deriving DecidableEq

/-- Result of the validation GET as observed by the caller: either the
request raised `requests.exceptions.RequestException` (network error,
timeout after retries, undecodable body), or a response with an HTTP
status code and parsed JSON body arrived. -/
inductive ValidateResult where
  | reqError
  | ok (status : Nat) (body : JsonBody)
deriving DecidableEq

/-- Environment facts about one file visited by the walk: everything the
outside world decides (readability, registry answer, operator input,
filesystem races, POST outcome). -/
structure FileFate where
  /-- `file_path.exists()` at the line-154 check. -/
  existsAtWalk : Bool := true
  /-- Readable byte content; `none` models `PermissionError`/`OSError`
  while hashing. -/
  content : Option (List Nat) := some []
  /-- The registry's answer to the validation GET. -/
  response : ValidateResult := ValidateResult.ok 200 (JsonBody.arr [])
  /-- The operator's reply to the delete confirmation prompt; `none`
  models end-of-input (`input()` raising `EOFError`). -/
  confirm : Option String := none
  /-- The filesystem operation inside `execute_action` raises. -/
  actionRaises : Bool := false
  /-- The file disappears (externally) before the line-201 existence
  re-check, independent of any executed action. -/
  vanishes : Bool := false
  /-- `file_path.stat().st_size`. -/
  size : Nat := 0
  /-- `file_path.suffix`. -/
  suffix : String := ""
  /-- The submission POST raises `requests.exceptions.RequestException`. -/
  postRaises : Bool := false
deriving DecidableEq

/-- A file's identity inside the scan: the chain of directory names below
the scan root, and the file name. -/
abbrev FileKey := List String × String

/-- One file as produced by the walk, together with its environment. -/
structure FileEnv where
  filename : String
  dirPath : List String := []
  dirName : String := ""
  fullPath : String := ""
  fate : FileFate := {}
deriving DecidableEq

def FileEnv.key (f : FileEnv) : FileKey := (f.dirPath, f.filename)

/-- The resolved configuration handed to `process_directory`
(`target_dir` is the tree, passed separately).  `hashFn` abstracts the MD5
hex digest of a byte sequence; the pipeline never inspects digest values. -/
structure Config where
  dryRun : Bool := false
  force : Bool := false
  excludes : List String := []
  apiUrl : String := "api"
  token : Option String := none
  hashFn : List Nat → String := fun _ => "d41d8cd98f00b204e9800998ecf8427e"

/-- The `stats` Counter of `process_directory` (line 133). -/
structure Stats where
  new : Nat := 0
  duplicate : Nat := 0
  path_match : Nat := 0
  failed : Nat := 0
  actions_taken : Nat := 0
deriving DecidableEq

/-- A validation GET as issued on line 168. -/
structure GetReq where
  url : String
  name_eq : String
  parent_dir_eq : String
  md5_eq : String
  timeout : Nat
deriving DecidableEq

/-- A submission POST payload as built on lines 205-210. -/
structure Submission where
  url : String
  name : String
  size : Nat
  kind : String
  md5 : String
  parent_dir : String
  full_path : String
  duplicate : Bool
  timeout : Nat
deriving DecidableEq

/-- A filesystem mutation actually performed by `execute_action`. -/
inductive FsOp where
  | copy (src dest : String)
  | move (src dest : String)
  | delete (path : String)
deriving DecidableEq

/-- Observable side effects of a scan, attributed to the file that caused
each of them: hashing attempts, validation GETs, submission POSTs,
filesystem mutations, and every counter increment. -/
structure Effects where
  hashed : List FileKey := []
  gets : List (FileKey × GetReq) := []
  posts : List (FileKey × Submission) := []
  fsOps : List FsOp := []
  counted : List (FileKey × String) := []
deriving DecidableEq

/-- The mutable state of `process_directory`: `stats`, the
`duplicate_parents` set (as an append list; the summary deduplicates), and
the effect traces. -/
structure ScanState where
  stats : Stats := {}
  duplicate_parents : List String := []
  eff : Effects := {}
deriving DecidableEq

/-- What one iteration of the per-file loop contributes: counter
increments, parent-set additions, effects, and whether the scan aborts
(`return` on HTTP 401). -/
structure FileDelta where
  stats : Stats := {}
  parents : List String := []
  eff : Effects := {}
  abort : Bool := false
deriving DecidableEq

def FileDelta.merge (a b : FileDelta) : FileDelta :=
  { stats :=
      { new := a.stats.new + b.stats.new
        duplicate := a.stats.duplicate + b.stats.duplicate
        path_match := a.stats.path_match + b.stats.path_match
        failed := a.stats.failed + b.stats.failed
        actions_taken := a.stats.actions_taken + b.stats.actions_taken }
    parents := a.parents ++ b.parents
    eff :=
      { hashed := a.eff.hashed ++ b.eff.hashed
        gets := a.eff.gets ++ b.eff.gets
        posts := a.eff.posts ++ b.eff.posts
        fsOps := a.eff.fsOps ++ b.eff.fsOps
        counted := a.eff.counted ++ b.eff.counted }
    abort := a.abort || b.abort }

def applyDelta (st : ScanState) (d : FileDelta) : ScanState :=
  { stats :=
      { new := st.stats.new + d.stats.new
        duplicate := st.stats.duplicate + d.stats.duplicate
        path_match := st.stats.path_match + d.stats.path_match
        failed := st.stats.failed + d.stats.failed
        actions_taken := st.stats.actions_taken + d.stats.actions_taken }
    duplicate_parents := st.duplicate_parents ++ d.parents
    eff :=
      { hashed := st.eff.hashed ++ d.eff.hashed
        gets := st.eff.gets ++ d.eff.gets
        posts := st.eff.posts ++ d.eff.posts
        fsOps := st.eff.fsOps ++ d.eff.fsOps
        counted := st.eff.counted ++ d.eff.counted } }

/-- `get_md5` (lines 74-84): streams the file's bytes through MD5 and
returns the hex digest, or `None` on `PermissionError`/`OSError`.  The
chunked read of the whole readable content equals hashing the whole
content, so the digest is `hash` of the content when readable. -/
def get_md5 (hash : List Nat → String) (content : Option (List Nat)) : Option String :=
  match content with
  | some bytes => some (hash bytes)
  | none => none

/-- The retry configuration built in `get_retrying_session`
(lines 86-97). -/
structure RetryPolicy where
  total : Nat
  backoff_factor : Nat
  status_forcelist : List Nat
  allowed_methods : List String
deriving DecidableEq

/-- `Retry(total=3, backoff_factor=1, status_forcelist=[500, 502, 503, 504],
allowed_methods=["GET", "POST"])` from lines 89-94. -/
def retries : RetryPolicy :=
  { total := 3
    backoff_factor := 1
    status_forcelist := [500, 502, 503, 504]
    allowed_methods := ["GET", "POST"] }

/-- Modelled from urllib3's documented `Retry` semantics, which the source
configures in `get_retrying_session`: `total` is the number of *retries*
allowed, so after the initial request up to `total` further attempts are
made, each triggered by a response status in `status_forcelist`; a status
outside the forcelist ends the loop.  `resp k` is the status of the k-th
attempt; the result is the number of HTTP attempts performed. -/
def attemptsGo (p : RetryPolicy) (resp : Nat → Nat) : Nat → Nat → Nat
  | 0, k => k
  | budget + 1, k =>
      if resp k ∈ p.status_forcelist then attemptsGo p resp budget (k + 1) else k

def attemptsTaken (p : RetryPolicy) (resp : Nat → Nat) : Nat :=
  attemptsGo p resp p.total 1

/-- The number of consecutive forcelist statuses starting at attempt `k`,
capped at `budget`. -/
def consecutiveBad (p : RetryPolicy) (resp : Nat → Nat) : Nat → Nat → Nat
  | _, 0 => 0
  | k, budget + 1 =>
      if resp k ∈ p.status_forcelist then 1 + consecutiveBad p resp (k + 1) budget else 0

/-- Modelled from urllib3's documented backoff formula: before the n-th
retry the client sleeps `backoff_factor * 2 ^ (n - 1)` seconds (no sleep
before the first retry). -/
def get_backoff_time (p : RetryPolicy) (n : Nat) : Nat :=
  if n ≤ 1 then 0 else p.backoff_factor * 2 ^ (n - 1)

/-- How `execute_action` reported its outcome: the action ran
(`performed`), the operator declined the delete confirmation (`declined`,
the line-119 skip log), an exception was caught (`failed`, the line-126
error log), or the action string was unrecognized (`noop`, the bare
`return False` on line 124). -/
inductive ActionReport where
  | performed
  | declined
  | failed
  | noop
deriving DecidableEq

/-- Result of `execute_action`: its boolean return value, how it was
reported, whether the source path no longer exists afterwards, and the
filesystem mutations performed. -/
structure ActionOutcome where
  returned : Bool
  report : ActionReport
  removedSource : Bool
  mutations : List FsOp
deriving DecidableEq

/-- Python's `str.lower()` on the character list of the string (the
embedding's strings are ASCII paths and action names). -/
def lowerStr (s : String) : String := String.mk (s.data.map Char.toLower)

/-- `execute_action` (lines 99-127): dispatch on `action.lower()`;
`cp` copies, `mv` moves, `rm` deletes after an interactive confirmation
unless `force`; any exception is caught and reported as a failure.
`confirm = none` models `input()` hitting end-of-input (`EOFError`), which
the surrounding `except Exception` catches. -/
def execute_action (action args current_path : String) (force : Bool)
    (confirm : Option String) (raises : Bool) : ActionOutcome :=
  match lowerStr action with
  | "cp" =>
      if raises then ⟨false, ActionReport.failed, false, []⟩
      else ⟨true, ActionReport.performed, false, [FsOp.copy current_path args]⟩
  | "mv" =>
      if raises then ⟨false, ActionReport.failed, false, []⟩
      else ⟨true, ActionReport.performed, true, [FsOp.move current_path args]⟩
  | "rm" =>
      if force then
        if raises then ⟨false, ActionReport.failed, false, []⟩
        else ⟨true, ActionReport.performed, true, [FsOp.delete current_path]⟩
      else
        match confirm with
        | none => ⟨false, ActionReport.failed, false, []⟩
        | some s =>
            if lowerStr s ≠ "y" then ⟨false, ActionReport.declined, false, []⟩
            else if raises then ⟨false, ActionReport.failed, false, []⟩
            else ⟨true, ActionReport.performed, true, [FsOp.delete current_path]⟩
  | _ => ⟨false, ActionReport.noop, false, []⟩

/-- The request headers built on lines 137-139. -/
def headersFor (token : Option String) : List (String × String) :=
  [("Content-Type", "application/json")] ++
    (match token with
     | some t => [("Authorization", "Bearer " ++ t)]
     | none => [])

/-- Stages 2 and 3 of the loop body (lines 193-213): remote action
execution and data submission, reached with the classification results of
stage 1. -/
def tailStage (cfg : Config) (f : FileEnv) (md5 : String)
    (is_duplicate is_exact_path_match : Bool) (remote_action remote_args : String) :
    FileDelta :=
  -- 2. Remote Action Execution (lines 193-198); in a dry run the intended
  -- action is only logged.
  let act : Option ActionOutcome :=
    if is_duplicate && remote_action != "" && !cfg.dryRun then
      some (execute_action remote_action remote_args f.fullPath cfg.force
        f.fate.confirm f.fate.actionRaises)
    else none
  let actDelta : FileDelta :=
    match act with
    | none => {}
    | some r =>
        FileDelta.merge { eff := { fsOps := r.mutations } }
          (if r.returned then
            { stats := { actions_taken := 1 }
              eff := { counted := [(f.key, "actions_taken")] } }
           else {})
  let removed : Bool :=
    match act with
    | some r => r.removedSource
    | none => false
  -- `file_path.exists()` at line 201: gone if the action removed it or it
  -- vanished externally.
  let existsNow : Bool := !removed && !f.fate.vanishes
  -- 3. Data Submission (lines 200-213).
  let subDelta : FileDelta :=
    if cfg.dryRun || !existsNow || is_exact_path_match then {}
    else
      let kindStr := if lowerStr f.fate.suffix = "" then "file" else lowerStr f.fate.suffix
      let payload : Submission :=
        { url := cfg.apiUrl, name := f.filename, size := f.fate.size
          kind := kindStr, md5 := md5, parent_dir := f.dirName
          full_path := f.fullPath, duplicate := is_duplicate, timeout := 10 }
      FileDelta.merge { eff := { posts := [(f.key, payload)] } }
        (if f.fate.postRaises then
          { stats := { failed := 1 }, eff := { counted := [(f.key, "failed")] } }
         else {})
  actDelta.merge subDelta

/-- Stage 1 of the loop body (lines 161-191): the validation GET and the
`match (res.status_code, res.json())` classification, then the tail
stages.  HTTP 401 makes the whole function `return` (lines 185-187); a
status matching no case falls through to the tail with the line-161
defaults. -/
def validationStage (cfg : Config) (f : FileEnv) (md5 : String) : FileDelta :=
  let req : GetReq :=
    { url := cfg.apiUrl, name_eq := f.filename, parent_dir_eq := f.dirName
      md5_eq := md5, timeout := 10 }
  let base : FileDelta := { eff := { gets := [(f.key, req)] } }
  match f.fate.response with
  | ValidateResult.reqError =>
      base.merge { stats := { failed := 1 }, eff := { counted := [(f.key, "failed")] } }
  | ValidateResult.ok status body =>
      if status = 200 then
        match body with
        | JsonBody.arr (i :: is) =>
            let remote_action := i.action.getD ""
            let remote_args := i.action_args.getD ""
            let is_exact := (i :: is).any (fun j => j.full_path == some f.fullPath)
            let cDelta : FileDelta :=
              if is_exact then
                { stats := { path_match := 1 }, eff := { counted := [(f.key, "path_match")] } }
              else
                { stats := { duplicate := 1 }, eff := { counted := [(f.key, "duplicate")] } }
            base.merge ((FileDelta.merge { parents := [f.dirName] } cDelta).merge
              (tailStage cfg f md5 true is_exact remote_action remote_args))
        | _ =>
            base.merge (FileDelta.merge
              { stats := { new := 1 }, eff := { counted := [(f.key, "new")] } }
              (tailStage cfg f md5 false false "" ""))
      else if status = 401 then
        base.merge { abort := true }
      else
        base.merge (tailStage cfg f md5 false false "" "")

/-- The full loop body for one file (lines 152-213): existence check,
hashing, then the validation stage. -/
def fileDelta (cfg : Config) (f : FileEnv) : FileDelta :=
  if !f.fate.existsAtWalk then {}
  else
    match get_md5 cfg.hashFn f.fate.content with
    | none =>
        { stats := { failed := 1 }
          eff := { hashed := [f.key], counted := [(f.key, "failed")] } }
    | some md5 =>
        FileDelta.merge { eff := { hashed := [f.key] } } (validationStage cfg f md5)

/-- One loop iteration applied to the scan state; the boolean says whether
the per-file body executed `return` (the 401 abort). -/
def processFile (cfg : Config) (st : ScanState) (f : FileEnv) : ScanState × Bool :=
  let d := fileDelta cfg f
  (applyDelta st d, d.abort)

/-- The per-file loop over the walk's file sequence, stopping at the first
abort. -/
def scanFiles (cfg : Config) : ScanState → List FileEnv → ScanState × Bool
  | st, [] => (st, false)
  | st, f :: rest =>
      let r := processFile cfg st f
      if r.2 then (r.1, true) else scanFiles cfg r.1 rest

def insertStr (s : String) : List String → List String
  | [] => [s]
  | t :: ts =>
      if compare s t = Ordering.gt then t :: insertStr s ts else s :: t :: ts

def sortStrs : List String → List String
  | [] => []
  | s :: ss => insertStr s (sortStrs ss)

/-- The summary report (lines 215-227): `sorted(duplicate_parents)` sorts
the distinct parent names. -/
def summaryLines (stats : Stats) (duplicate_parents : List String) : List String :=
  let eq40 := String.mk (List.replicate 40 '=')
  let dash40 := String.mk (List.replicate 40 '-')
  let parents := duplicate_parents.dedup
  ["\n" ++ eq40, "SCAN SUMMARY REPORT", eq40,
   "New Files Posted:      " ++ toString stats.new,
   "Duplicates Found:      " ++ toString stats.duplicate,
   "Exact Path Matches:    " ++ toString stats.path_match,
   "Actions Executed:      " ++ toString stats.actions_taken,
   "Failed Operations:     " ++ toString stats.failed,
   dash40, "Parent Directories with Duplicates:"] ++
  (if parents = [] then [" - None"] else (sortStrs parents).map (fun p => " - " ++ p)) ++
  [eq40]

/-- What a scan yields: the final state, whether it was aborted by the 401
`return`, and the summary report — which the source only emits when the
loop runs to completion (the line-187 `return` skips lines 215-227). -/
structure ScanResult where
  state : ScanState
  aborted : Bool
  summary : Option (List String)
deriving DecidableEq

/-- `process_directory` (lines 129-227) over an already-walked file
sequence. -/
def process_directory (cfg : Config) (files : List FileEnv) : ScanResult :=
  let r := scanFiles cfg {} files
  { state := r.1
    aborted := r.2
    summary := if r.2 then none else some (summaryLines r.1.stats r.1.duplicate_parents) }

/-- A directory tree: name, regular files, subdirectories. -/
inductive DirTree where
  | node (name : String) (files : List String) (subdirs : List DirTree)

def DirTree.name : DirTree → String
  | DirTree.node n _ _ => n

/-- The line-148/149 pruning: `if excludes: dirs[:] = [d for d in dirs if d
not in excludes]`. -/
def pruneDirs (excludes : List String) (ds : List DirTree) : List DirTree :=
  if excludes = [] then ds else ds.filter (fun d => d.name ∉ excludes)

/-- `os.walk(root_path)` top-down with the in-place pruning of line 149:
the visited files of the tree, each tagged with its chain of directory
names below the root.  Pruned subtrees are never entered. -/
def walkTree (excludes : List String) : DirTree → List FileKey
  | DirTree.node _ fs ds =>
      fs.map (fun f => (([] : List String), f)) ++
      (pruneDirs excludes ds).attach.flatMap
        (fun t => (walkTree excludes t.1).map (fun pf => (t.1.name :: pf.1, pf.2)))
termination_by t => sizeOf t
decreasing_by
  rename_i fs ds
  have h1 : t.1 ∈ pruneDirs excludes ds := t.2
  have h2 : t.1 ∈ ds := by
    unfold pruneDirs at h1
    split at h1
    · exact h1
    · exact List.mem_of_mem_filter h1
  have h3 := List.sizeOf_lt_of_mem h2
  simp only [DirTree.node.sizeOf_spec]
  omega

/-- Assemble the `FileEnv` of a walked file: `current_dir.name` and
`str(current_dir / filename)` as in lines 151-153 and 167/177. -/
def mkFileEnv (rootName : String) (k : FileKey) (fate : FileFate) : FileEnv :=
  { filename := k.2
    dirPath := k.1
    dirName := k.1.getLastD rootName
    fullPath := String.intercalate "/" (rootName :: k.1 ++ [k.2])
    fate := fate }

/-- The whole of `process_directory` on a directory tree: walk with
pruning, then the per-file pipeline. -/
def scanTree (cfg : Config) (rootName : String) (t : DirTree)
    (fate : FileKey → FileFate) : ScanResult :=
  process_directory cfg
    ((walkTree cfg.excludes t).map (fun k => mkFileEnv rootName k (fate k)))

/-! ### Observational predicates on a visited file

Each of the following is read off the same environment a file carries; the
characterization lemmas below prove that `fileDelta` is determined by
them, which is what the claims are stated against. -/

/-- The file passed the line-154 existence check. -/
def visited (f : FileEnv) : Bool := f.fate.existsAtWalk

/-- `get_md5` succeeded for the file. -/
def hashable (f : FileEnv) : Bool := f.fate.content.isSome

/-- The digest the pipeline computed for the file. -/
def md5Of (cfg : Config) (f : FileEnv) : String :=
  match f.fate.content with
  | some c => cfg.hashFn c
  | none => ""

/-- The validation GET raised. -/
def respErr (f : FileEnv) : Bool :=
  match f.fate.response with
  | ValidateResult.reqError => true
  | _ => false

/-- The validation response had status 200 (and hence took one of the two
200 branches of the `match`). -/
def respOk200 (f : FileEnv) : Bool :=
  match f.fate.response with
  | ValidateResult.ok status _ => status == 200
  | _ => false

/-- The validation response had status 401. -/
def respAuthFail (f : FileEnv) : Bool :=
  match f.fate.response with
  | ValidateResult.ok status _ => status == 401
  | _ => false

/-- The non-empty match list of a duplicate-classifying response. -/
def respDupList (f : FileEnv) : Option (RegItem × List RegItem) :=
  match f.fate.response with
  | ValidateResult.ok status (JsonBody.arr (i :: is)) =>
      if status = 200 then some (i, is) else none
  | _ => none

/-- The response classifies the file as a duplicate (`is_duplicate`). -/
def isDupOf (f : FileEnv) : Bool := (respDupList f).isSome

/-- The response classifies the file as an exact path match
(`is_exact_path_match`). -/
def exactOf (f : FileEnv) : Bool :=
  match respDupList f with
  | some (i, is) => (i :: is).any (fun j => j.full_path == some f.fullPath)
  | none => false

/-- The response classifies the file as new. -/
def isNewOf (f : FileEnv) : Bool := respOk200 f && !isDupOf f

/-- The remote-directed action of the first returned match. -/
def remoteActionOf (f : FileEnv) : String :=
  match respDupList f with
  | some (i, _) => i.action.getD ""
  | none => ""

/-- The argument string of the first returned match. -/
def remoteArgsOf (f : FileEnv) : String :=
  match respDupList f with
  | some (i, _) => i.action_args.getD ""
  | none => ""

/-- The `execute_action` call performed for the file, if any: it happens
exactly when the file was validated as a duplicate with a non-empty action
string and the run is not a preview. -/
def actionResult (cfg : Config) (f : FileEnv) : Option ActionOutcome :=
  if visited f && hashable f && isDupOf f && remoteActionOf f != "" && !cfg.dryRun then
    some (execute_action (remoteActionOf f) (remoteArgsOf f) f.fullPath cfg.force
      f.fate.confirm f.fate.actionRaises)
  else none

/-- The executed action removed the source file. -/
def removedBy (cfg : Config) (f : FileEnv) : Bool :=
  match actionResult cfg f with
  | some r => r.removedSource
  | none => false

/-- The file still exists at the line-201 re-check. -/
def existsAtSubmit (cfg : Config) (f : FileEnv) : Bool :=
  !removedBy cfg f && !f.fate.vanishes

/-- The submission POST is issued for the file: the pipeline reached stage
3 (hash ok, validation answered with a status other than 401) and the
line-201 guard passed. -/
def submitCond (cfg : Config) (f : FileEnv) : Bool :=
  visited f && hashable f && !respErr f && !respAuthFail f &&
    !cfg.dryRun && existsAtSubmit cfg f && !exactOf f

/-- `file_path.suffix.lower() or "file"`. -/
def kindOf (f : FileEnv) : String :=
  if lowerStr f.fate.suffix = "" then "file" else lowerStr f.fate.suffix

/-- The POST payload built for the file (lines 205-210). -/
def payloadOf (cfg : Config) (f : FileEnv) : Submission :=
  { url := cfg.apiUrl, name := f.filename, size := f.fate.size
    kind := kindOf f, md5 := md5Of cfg f, parent_dir := f.dirName
    full_path := f.fullPath, duplicate := isDupOf f, timeout := 10 }

/-- The validation GET issued for the file (lines 167-168). -/
def getReqOf (cfg : Config) (f : FileEnv) : GetReq :=
  { url := cfg.apiUrl, name_eq := f.filename, parent_dir_eq := f.dirName
    md5_eq := md5Of cfg f, timeout := 10 }

/-- The file makes the scan abort: existing, hashable, and answered with
HTTP 401. -/
def abortsF (f : FileEnv) : Bool :=
  visited f && hashable f && respAuthFail f

/-- The file was successfully validated: its validation response was
received and classified by one of the 200 branches. -/
def classified (f : FileEnv) : Bool :=
  visited f && hashable f && respOk200 f

/-- The file failed before or during validation (unreadable, or the GET
raised). -/
def validationFailure (f : FileEnv) : Bool :=
  visited f && (!hashable f || respErr f)

/-- The files the loop actually iterates over: everything up to and
including the first aborting file. -/
def processedFiles : List FileEnv → List FileEnv
  | [] => []
  | f :: rest => if abortsF f then [f] else f :: processedFiles rest

/-- The number of files of the scan that were successfully validated. -/
def successfullyValidated (files : List FileEnv) : Nat :=
  (processedFiles files).countP (fun f => classified f)

/-- The combined delta of a whole scan. -/
def totalDelta (cfg : Config) : List FileEnv → FileDelta
  | [] => {}
  | f :: rest =>
      if (fileDelta cfg f).abort then fileDelta cfg f
      else (fileDelta cfg f).merge (totalDelta cfg rest)

/-- Spec-side characterization for claim C10: one validation GET per
visited, hashable file, in walk order, stopping after an aborting file —
defined without reference to preview mode. -/
def expectedValidations (cfg : Config) : List FileEnv → List (FileKey × GetReq)
  | [] => []
  | f :: rest =>
      let here := if visited f && hashable f then [(f.key, getReqOf cfg f)] else []
      if abortsF f then here else here ++ expectedValidations cfg rest

/-- The counter increments attributed to the file, in program order; a
file hits at most one of the classification buckets. -/
def countedSpec (cfg : Config) (f : FileEnv) : List (FileKey × String) :=
  (if visited f && !hashable f then [(f.key, "failed")] else []) ++
  (if visited f && hashable f && respErr f then [(f.key, "failed")] else []) ++
  (if visited f && hashable f && exactOf f then [(f.key, "path_match")] else []) ++
  (if visited f && hashable f && isDupOf f && !exactOf f then [(f.key, "duplicate")] else []) ++
  (if visited f && hashable f && isNewOf f then [(f.key, "new")] else []) ++
  (if (actionResult cfg f).elim false (fun r => r.returned) then [(f.key, "actions_taken")] else []) ++
  (if submitCond cfg f && f.fate.postRaises then [(f.key, "failed")] else [])

/-- The per-file delta expressed through the observational predicates. -/
def deltaSpec (cfg : Config) (f : FileEnv) : FileDelta :=
  { stats :=
      { new := if visited f && hashable f && isNewOf f then 1 else 0
        duplicate := if visited f && hashable f && isDupOf f && !exactOf f then 1 else 0
        path_match := if visited f && hashable f && exactOf f then 1 else 0
        failed := (if validationFailure f then 1 else 0) +
          (if submitCond cfg f && f.fate.postRaises then 1 else 0)
        actions_taken := if (actionResult cfg f).elim false (fun r => r.returned) then 1 else 0 }
    parents := if visited f && hashable f && isDupOf f then [f.dirName] else []
    eff :=
      { hashed := if visited f then [f.key] else []
        gets := if visited f && hashable f then [(f.key, getReqOf cfg f)] else []
        posts := if submitCond cfg f then [(f.key, payloadOf cfg f)] else []
        fsOps := (actionResult cfg f).elim [] (fun r => r.mutations)
        counted := countedSpec cfg f }
    abort := abortsF f }

set_option maxHeartbeats 2000000 in
/-- The translation of the loop body is exactly determined by the
observational predicates. -/
theorem fileDelta_eq (cfg : Config) (f : FileEnv) : fileDelta cfg f = deltaSpec cfg f := by
  cases hfe : f.fate.existsAtWalk with
  | false =>
      simp [fileDelta, deltaSpec, countedSpec, visited, hashable, respErr, respOk200,
        respAuthFail, respDupList, isDupOf, exactOf, isNewOf, remoteActionOf,
        remoteArgsOf, actionResult, removedBy, existsAtSubmit, submitCond,
        payloadOf, getReqOf, abortsF, validationFailure, md5Of, hfe]
  | true =>
      cases hc : f.fate.content with
      | none =>
          simp [fileDelta, deltaSpec, countedSpec, visited, hashable, respErr, respOk200,
            respAuthFail, respDupList, isDupOf, exactOf, isNewOf, remoteActionOf,
            remoteArgsOf, actionResult, removedBy, existsAtSubmit, submitCond,
            payloadOf, getReqOf, abortsF, validationFailure, md5Of, get_md5, hfe, hc]
      | some c =>
          cases hr : f.fate.response with
          | reqError =>
              simp [fileDelta, deltaSpec, countedSpec, visited, hashable, respErr, respOk200,
                respAuthFail, respDupList, isDupOf, exactOf, isNewOf, remoteActionOf,
                remoteArgsOf, actionResult, removedBy, existsAtSubmit, submitCond,
                payloadOf, getReqOf, abortsF, validationFailure, md5Of, get_md5,
                validationStage, FileDelta.merge, hfe, hc, hr]
          | ok status body =>
              by_cases h200 : status = 200
              · subst h200
                cases body with
                | nonArray =>
                    by_cases hd : cfg.dryRun = true <;>
                    by_cases hv : f.fate.vanishes = true <;>
                    by_cases hp : f.fate.postRaises = true <;>
                    simp [fileDelta, deltaSpec, countedSpec, visited, hashable, respErr,
                      respOk200, respAuthFail, respDupList, isDupOf, exactOf, isNewOf,
                      remoteActionOf, remoteArgsOf, actionResult, removedBy, existsAtSubmit,
                      submitCond, payloadOf, getReqOf, abortsF, validationFailure, md5Of,
                      get_md5, validationStage, tailStage, kindOf, FileDelta.merge,
                      hfe, hc, hr, hd, hv, hp]
                | arr items =>
                    cases items with
                    | nil =>
                        by_cases hd : cfg.dryRun = true <;>
                        by_cases hv : f.fate.vanishes = true <;>
                        by_cases hp : f.fate.postRaises = true <;>
                        simp [fileDelta, deltaSpec, countedSpec, visited, hashable, respErr,
                          respOk200, respAuthFail, respDupList, isDupOf, exactOf, isNewOf,
                          remoteActionOf, remoteArgsOf, actionResult, removedBy,
                          existsAtSubmit, submitCond, payloadOf, getReqOf, abortsF,
                          validationFailure, md5Of, get_md5, validationStage, tailStage,
                          kindOf, FileDelta.merge, hfe, hc, hr, hd, hv, hp]
                    | cons i is =>
                        simp only [fileDelta, deltaSpec, countedSpec, visited, hashable,
                          respErr, respOk200, respAuthFail, respDupList, isDupOf, exactOf,
                          isNewOf, remoteActionOf, remoteArgsOf, actionResult, removedBy,
                          existsAtSubmit, submitCond, payloadOf, getReqOf, abortsF,
                          validationFailure, md5Of, get_md5, validationStage, tailStage,
                          kindOf, FileDelta.merge, hfe, hc, hr]
                        by_cases hex : ((i :: is).any
                            (fun j => j.full_path == some f.fullPath)) = true <;>
                        by_cases hact : (i.action.getD "") = "" <;>
                        by_cases hd : cfg.dryRun = true <;>
                        by_cases hrem : (execute_action (i.action.getD "")
                            (i.action_args.getD "") f.fullPath cfg.force f.fate.confirm
                            f.fate.actionRaises).removedSource = true <;>
                        by_cases hret : (execute_action (i.action.getD "")
                            (i.action_args.getD "") f.fullPath cfg.force f.fate.confirm
                            f.fate.actionRaises).returned = true <;>
                        by_cases hv : f.fate.vanishes = true <;>
                        by_cases hp : f.fate.postRaises = true <;>
                        simp [hex, hact, hd, hrem, hret, hv, hp]
              · by_cases h401 : status = 401
                · subst h401
                  cases body with
                  | nonArray =>
                      simp [fileDelta, deltaSpec, countedSpec, visited, hashable, respErr,
                        respOk200, respAuthFail, respDupList, isDupOf, exactOf, isNewOf,
                        remoteActionOf, remoteArgsOf, actionResult, removedBy, existsAtSubmit,
                        submitCond, payloadOf, getReqOf, abortsF, validationFailure, md5Of,
                        get_md5, validationStage, tailStage, kindOf, FileDelta.merge,
                        hfe, hc, hr]
                  | arr items =>
                      cases items <;>
                      simp [fileDelta, deltaSpec, countedSpec, visited, hashable, respErr,
                        respOk200, respAuthFail, respDupList, isDupOf, exactOf, isNewOf,
                        remoteActionOf, remoteArgsOf, actionResult, removedBy, existsAtSubmit,
                        submitCond, payloadOf, getReqOf, abortsF, validationFailure, md5Of,
                        get_md5, validationStage, tailStage, kindOf, FileDelta.merge,
                        hfe, hc, hr]
                · cases body with
                  | nonArray =>
                      simp only [fileDelta, deltaSpec, countedSpec, visited, hashable,
                        respErr, respOk200, respAuthFail, respDupList, isDupOf, exactOf,
                        isNewOf, remoteActionOf, remoteArgsOf, actionResult, removedBy,
                        existsAtSubmit, submitCond, payloadOf, getReqOf, abortsF,
                        validationFailure, md5Of, get_md5, validationStage, tailStage,
                        kindOf, FileDelta.merge, hfe, hc, hr]
                      by_cases hd : cfg.dryRun = true <;>
                      by_cases hv : f.fate.vanishes = true <;>
                      by_cases hp : f.fate.postRaises = true <;>
                      simp [h200, h401, hd, hv, hp]
                  | arr items =>
                      cases items <;>
                      (simp only [fileDelta, deltaSpec, countedSpec, visited, hashable,
                         respErr, respOk200, respAuthFail, respDupList, isDupOf, exactOf,
                         isNewOf, remoteActionOf, remoteArgsOf, actionResult, removedBy,
                         existsAtSubmit, submitCond, payloadOf, getReqOf, abortsF,
                         validationFailure, md5Of, get_md5, validationStage, tailStage,
                         kindOf, FileDelta.merge, hfe, hc, hr]) <;>
                      (by_cases hd : cfg.dryRun = true <;>
                       by_cases hv : f.fate.vanishes = true <;>
                       by_cases hp : f.fate.postRaises = true <;>
                       simp [h200, h401, hd, hv, hp])

/-! ### Scan-level algebra -/

theorem fileDelta_abort (cfg : Config) (f : FileEnv) :
    (fileDelta cfg f).abort = abortsF f := by
  rw [fileDelta_eq]
  rfl

theorem applyDelta_empty (st : ScanState) : applyDelta st {} = st := by
  cases st with
  | mk stats dp eff =>
      cases stats
      cases eff
      simp [applyDelta]

theorem applyDelta_merge (st : ScanState) (a b : FileDelta) :
    applyDelta (applyDelta st a) b = applyDelta st (a.merge b) := by
  simp [applyDelta, FileDelta.merge, Nat.add_assoc, List.append_assoc]

theorem scanFiles_fst (cfg : Config) (st : ScanState) (files : List FileEnv) :
    (scanFiles cfg st files).1 = applyDelta st (totalDelta cfg files) := by
  induction files generalizing st with
  | nil => simp [scanFiles, totalDelta, applyDelta_empty]
  | cons f rest ih =>
      simp only [scanFiles, processFile, totalDelta]
      by_cases h : (fileDelta cfg f).abort = true
      · simp [h]
      · simp [h, ih, applyDelta_merge]

theorem scanFiles_snd (cfg : Config) (st : ScanState) (files : List FileEnv) :
    (scanFiles cfg st files).2 = files.any (fun f => abortsF f) := by
  induction files generalizing st with
  | nil => simp [scanFiles]
  | cons f rest ih =>
      simp only [scanFiles, processFile, List.any_cons]
      by_cases h : abortsF f = true
      · simp [fileDelta_abort, h]
      · simp [fileDelta_abort, h, ih]

theorem process_directory_state (cfg : Config) (files : List FileEnv) :
    (process_directory cfg files).state = applyDelta {} (totalDelta cfg files) := by
  simp [process_directory, scanFiles_fst]

theorem process_directory_aborted (cfg : Config) (files : List FileEnv) :
    (process_directory cfg files).aborted = files.any (fun f => abortsF f) := by
  simp [process_directory, scanFiles_snd]

theorem process_directory_summary (cfg : Config) (files : List FileEnv) :
    (process_directory cfg files).summary =
      if files.any (fun f => abortsF f) then none
      else some (summaryLines (process_directory cfg files).state.stats
        (process_directory cfg files).state.duplicate_parents) := by
  simp only [process_directory, scanFiles_snd, scanFiles_fst]

theorem totalDelta_cons (cfg : Config) (f : FileEnv) (rest : List FileEnv) :
    totalDelta cfg (f :: rest) =
      if abortsF f then fileDelta cfg f
      else (fileDelta cfg f).merge (totalDelta cfg rest) := by
  simp [totalDelta, fileDelta_abort]

/-! ### Shape facts about the observational predicates -/

theorem exactOf_dup (f : FileEnv) : exactOf f = true → isDupOf f = true := by
  unfold exactOf isDupOf
  cases h : respDupList f <;> simp

theorem dup_ok200 (f : FileEnv) : isDupOf f = true → respOk200 f = true := by
  unfold isDupOf respDupList respOk200
  cases hr : f.fate.response with
  | reqError => simp
  | ok s b =>
      cases b with
      | nonArray => simp
      | arr items =>
          cases items with
          | nil => simp
          | cons i is => by_cases h : s = 200 <;> simp [h]

theorem respErr_not_ok200 (f : FileEnv) : respErr f = true → respOk200 f = false := by
  unfold respErr respOk200
  cases hr : f.fate.response <;> simp

/-- Per-file contribution to `new + duplicate + path_match`: exactly one
for a classified file, zero otherwise. -/
theorem delta_sum_one (cfg : Config) (f : FileEnv) :
    (fileDelta cfg f).stats.new + (fileDelta cfg f).stats.duplicate +
      (fileDelta cfg f).stats.path_match = if classified f then 1 else 0 := by
  rw [fileDelta_eq]
  simp only [deltaSpec, classified, isNewOf]
  by_cases ho : respOk200 f = true
  · by_cases hdup : isDupOf f = true
    · by_cases hex : exactOf f = true
      · by_cases hv : visited f = true <;> by_cases hh : hashable f = true <;>
          simp [ho, hdup, hex, hv, hh]
      · by_cases hv : visited f = true <;> by_cases hh : hashable f = true <;>
          simp [ho, hdup, hex, hv, hh]
    · have he : exactOf f = false := by
        cases hex : exactOf f
        · rfl
        · exact absurd (exactOf_dup f hex) hdup
      by_cases hv : visited f = true <;> by_cases hh : hashable f = true <;>
        simp [ho, hdup, he, hv, hh]
  · have hd : isDupOf f = false := by
      cases hdup : isDupOf f
      · rfl
      · exact absurd (dup_ok200 f hdup) ho
    have he : exactOf f = false := by
      cases hex : exactOf f
      · rfl
      · simp [exactOf_dup f hex] at hd
    simp [Bool.not_eq_true] at ho
    simp [ho, hd, he]

theorem classified_not_valfail (f : FileEnv) :
    (classified f && validationFailure f) = false := by
  unfold classified validationFailure
  cases hv : visited f <;> cases hh : hashable f <;> cases he : respErr f <;>
    simp [hv, hh, he]
  exact respErr_not_ok200 f he

/-! ### Scan-level corollaries of the characterization -/

theorem merge_new (a b : FileDelta) :
    (a.merge b).stats.new = a.stats.new + b.stats.new := rfl

theorem merge_duplicate (a b : FileDelta) :
    (a.merge b).stats.duplicate = a.stats.duplicate + b.stats.duplicate := rfl

theorem merge_path_match (a b : FileDelta) :
    (a.merge b).stats.path_match = a.stats.path_match + b.stats.path_match := rfl

theorem merge_failed (a b : FileDelta) :
    (a.merge b).stats.failed = a.stats.failed + b.stats.failed := rfl

theorem merge_actions (a b : FileDelta) :
    (a.merge b).stats.actions_taken = a.stats.actions_taken + b.stats.actions_taken := rfl

theorem merge_hashed (a b : FileDelta) :
    (a.merge b).eff.hashed = a.eff.hashed ++ b.eff.hashed := rfl

theorem merge_gets (a b : FileDelta) :
    (a.merge b).eff.gets = a.eff.gets ++ b.eff.gets := rfl

theorem merge_posts (a b : FileDelta) :
    (a.merge b).eff.posts = a.eff.posts ++ b.eff.posts := rfl

theorem merge_fsOps (a b : FileDelta) :
    (a.merge b).eff.fsOps = a.eff.fsOps ++ b.eff.fsOps := rfl

theorem merge_counted (a b : FileDelta) :
    (a.merge b).eff.counted = a.eff.counted ++ b.eff.counted := rfl

theorem auth_not_ok200 (f : FileEnv) : respAuthFail f = true → respOk200 f = false := by
  unfold respAuthFail respOk200
  cases hr : f.fate.response with
  | reqError => simp
  | ok s b =>
      simp only [beq_iff_eq]
      intro h
      subst h
      simp

theorem abortsF_not_classified (f : FileEnv) :
    abortsF f = true → classified f = false := by
  unfold abortsF classified
  intro h
  simp only [Bool.and_eq_true] at h
  rw [auth_not_ok200 f h.2]
  simp

theorem totalDelta_sum (cfg : Config) (files : List FileEnv) :
    (totalDelta cfg files).stats.new + (totalDelta cfg files).stats.duplicate +
      (totalDelta cfg files).stats.path_match =
      (processedFiles files).countP (fun f => classified f) := by
  induction files with
  | nil => simp [totalDelta, processedFiles]
  | cons f rest ih =>
      rw [totalDelta_cons]
      by_cases h : abortsF f = true
      · rw [if_pos h]
        simp only [processedFiles, if_pos h, List.countP_cons, List.countP_nil]
        rw [delta_sum_one, abortsF_not_classified f h]
        simp
      · rw [if_neg h]
        simp only [processedFiles, if_neg h, List.countP_cons]
        have hf := delta_sum_one cfg f
        simp only [merge_new, merge_duplicate, merge_path_match]
        omega

theorem fileDelta_posts (cfg : Config) (f : FileEnv) :
    (fileDelta cfg f).eff.posts =
      if submitCond cfg f then [(f.key, payloadOf cfg f)] else [] := by
  rw [fileDelta_eq]
  rfl

theorem fileDelta_gets (cfg : Config) (f : FileEnv) :
    (fileDelta cfg f).eff.gets =
      if visited f && hashable f then [(f.key, getReqOf cfg f)] else [] := by
  rw [fileDelta_eq]
  rfl

theorem fileDelta_hashed (cfg : Config) (f : FileEnv) :
    (fileDelta cfg f).eff.hashed = if visited f then [f.key] else [] := by
  rw [fileDelta_eq]
  rfl

theorem fileDelta_failed (cfg : Config) (f : FileEnv) :
    (fileDelta cfg f).stats.failed =
      (if validationFailure f then 1 else 0) +
        (if submitCond cfg f && f.fate.postRaises then 1 else 0) := by
  rw [fileDelta_eq]
  rfl

theorem fileDelta_actions (cfg : Config) (f : FileEnv) :
    (fileDelta cfg f).stats.actions_taken =
      if (actionResult cfg f).elim false (fun r => r.returned) then 1 else 0 := by
  rw [fileDelta_eq]
  rfl

theorem fileDelta_fsOps (cfg : Config) (f : FileEnv) :
    (fileDelta cfg f).eff.fsOps = (actionResult cfg f).elim [] (fun r => r.mutations) := by
  rw [fileDelta_eq]
  rfl

theorem fileDelta_counted (cfg : Config) (f : FileEnv) :
    (fileDelta cfg f).eff.counted = countedSpec cfg f := by
  rw [fileDelta_eq]
  rfl

theorem totalDelta_failed (cfg : Config) (files : List FileEnv) :
    (totalDelta cfg files).stats.failed =
      (processedFiles files).countP (fun f => validationFailure f) +
        (processedFiles files).countP (fun f => submitCond cfg f && f.fate.postRaises) := by
  induction files with
  | nil => simp [totalDelta, processedFiles]
  | cons f rest ih =>
      rw [totalDelta_cons]
      by_cases h : abortsF f = true
      · rw [if_pos h]
        simp only [processedFiles, if_pos h, List.countP_cons, List.countP_nil]
        rw [fileDelta_failed]
        omega
      · rw [if_neg h]
        simp only [processedFiles, if_neg h, List.countP_cons, merge_failed]
        rw [fileDelta_failed]
        omega

theorem totalDelta_posts (cfg : Config) (files : List FileEnv) :
    (totalDelta cfg files).eff.posts =
      (processedFiles files).filterMap
        (fun g => if submitCond cfg g then some (g.key, payloadOf cfg g) else none) := by
  induction files with
  | nil => simp [totalDelta, processedFiles]
  | cons f rest ih =>
      rw [totalDelta_cons]
      by_cases h : abortsF f = true
      · rw [if_pos h]
        simp only [processedFiles, if_pos h, List.filterMap_cons, List.filterMap_nil]
        rw [fileDelta_posts]
        by_cases hs : submitCond cfg f = true <;> simp [hs]
      · rw [if_neg h]
        simp only [processedFiles, if_neg h, List.filterMap_cons, merge_posts, ih]
        rw [fileDelta_posts]
        by_cases hs : submitCond cfg f = true <;> simp [hs]

theorem totalDelta_gets (cfg : Config) (files : List FileEnv) :
    (totalDelta cfg files).eff.gets = expectedValidations cfg files := by
  induction files with
  | nil => simp [totalDelta, expectedValidations]
  | cons f rest ih =>
      rw [totalDelta_cons]
      by_cases h : abortsF f = true
      · rw [if_pos h]
        simp only [expectedValidations, if_pos h]
        rw [fileDelta_gets]
      · rw [if_neg h]
        simp only [expectedValidations, if_neg h, merge_gets, ih]
        rw [fileDelta_gets]

theorem countedSpec_keys (cfg : Config) (f : FileEnv) :
    ∀ e ∈ countedSpec cfg f, e.1 = f.key := by
  intro e he
  unfold countedSpec at he
  simp only [List.mem_append] at he
  rcases he with ((((((h | h) | h) | h) | h) | h) | h) <;>
    (split at h <;> simp_all)

theorem totalDelta_hashed_keys (cfg : Config) (files : List FileEnv) :
    ∀ k ∈ (totalDelta cfg files).eff.hashed, ∃ f ∈ files, k = f.key := by
  induction files with
  | nil => simp [totalDelta]
  | cons f rest ih =>
      rw [totalDelta_cons]
      by_cases h : abortsF f = true
      · rw [if_pos h, fileDelta_hashed]
        intro k hk
        split at hk
        · simp only [List.mem_singleton] at hk
          exact ⟨f, by simp, hk⟩
        · simp at hk
      · rw [if_neg h]
        intro k hk
        rw [merge_hashed, List.mem_append, fileDelta_hashed] at hk
        rcases hk with hk | hk
        · split at hk
          · simp only [List.mem_singleton] at hk
            exact ⟨f, by simp, hk⟩
          · simp at hk
        · obtain ⟨g, hg, hk⟩ := ih k hk
          exact ⟨g, by simp [hg], hk⟩

theorem totalDelta_gets_keys (cfg : Config) (files : List FileEnv) :
    ∀ e ∈ (totalDelta cfg files).eff.gets, ∃ f ∈ files, e.1 = f.key := by
  induction files with
  | nil => simp [totalDelta]
  | cons f rest ih =>
      rw [totalDelta_cons]
      by_cases h : abortsF f = true
      · rw [if_pos h, fileDelta_gets]
        intro e he
        split at he
        · simp only [List.mem_singleton] at he
          exact ⟨f, by simp, by rw [he]⟩
        · simp at he
      · rw [if_neg h]
        intro e he
        rw [merge_gets, List.mem_append, fileDelta_gets] at he
        rcases he with he | he
        · split at he
          · simp only [List.mem_singleton] at he
            exact ⟨f, by simp, by rw [he]⟩
          · simp at he
        · obtain ⟨g, hg, hk⟩ := ih e he
          exact ⟨g, by simp [hg], hk⟩

theorem totalDelta_counted_keys (cfg : Config) (files : List FileEnv) :
    ∀ e ∈ (totalDelta cfg files).eff.counted, ∃ f ∈ files, e.1 = f.key := by
  induction files with
  | nil => simp [totalDelta]
  | cons f rest ih =>
      rw [totalDelta_cons]
      by_cases h : abortsF f = true
      · rw [if_pos h, fileDelta_counted]
        intro e he
        exact ⟨f, by simp, countedSpec_keys cfg f e he⟩
      · rw [if_neg h]
        intro e he
        rw [merge_counted, List.mem_append, fileDelta_counted] at he
        rcases he with he | he
        · exact ⟨f, by simp, countedSpec_keys cfg f e he⟩
        · obtain ⟨g, hg, hk⟩ := ih e he
          exact ⟨g, by simp [hg], hk⟩

theorem submitCond_dry (cfg : Config) (f : FileEnv) (h : cfg.dryRun = true) :
    submitCond cfg f = false := by
  unfold submitCond
  simp [h]

theorem actionResult_dry (cfg : Config) (f : FileEnv) (h : cfg.dryRun = true) :
    actionResult cfg f = none := by
  unfold actionResult
  simp [h]

theorem totalDelta_dry (cfg : Config) (files : List FileEnv) (h : cfg.dryRun = true) :
    (totalDelta cfg files).eff.posts = [] ∧ (totalDelta cfg files).eff.fsOps = [] ∧
      (totalDelta cfg files).stats.actions_taken = 0 := by
  induction files with
  | nil => simp [totalDelta]
  | cons f rest ih =>
      have hper : (fileDelta cfg f).eff.posts = [] ∧ (fileDelta cfg f).eff.fsOps = [] ∧
          (fileDelta cfg f).stats.actions_taken = 0 := by
        rw [fileDelta_posts, fileDelta_fsOps, fileDelta_actions,
          submitCond_dry cfg f h, actionResult_dry cfg f h]
        simp [Option.elim]
      rw [totalDelta_cons]
      by_cases hab : abortsF f = true
      · rw [if_pos hab]
        exact hper
      · rw [if_neg hab]
        refine ⟨?_, ?_, ?_⟩
        · rw [merge_posts, hper.1, ih.1]
          rfl
        · rw [merge_fsOps, hper.2.1, ih.2.1]
          rfl
        · rw [merge_actions, hper.2.2, ih.2.2]

theorem processedFiles_append (pre post : List FileEnv) (f : FileEnv)
    (hpre : ∀ g ∈ pre, abortsF g = false) (hf : abortsF f = true) :
    processedFiles (pre ++ f :: post) = pre ++ [f] := by
  induction pre with
  | nil => simp [processedFiles, hf]
  | cons g gs ih =>
      have hg : abortsF g = false := hpre g (by simp)
      simp only [List.cons_append, processedFiles, hg, Bool.false_eq_true, if_false,
        List.append_eq]
      rw [ih (fun x hx => hpre x (by simp [hx]))]

theorem totalDelta_append (cfg : Config) (pre post : List FileEnv) (f : FileEnv)
    (hpre : ∀ g ∈ pre, abortsF g = false) (hf : abortsF f = true) :
    totalDelta cfg (pre ++ f :: post) = totalDelta cfg (pre ++ [f]) := by
  induction pre with
  | nil =>
      simp [totalDelta_cons, hf]
  | cons g gs ih =>
      have hg : abortsF g = false := hpre g (by simp)
      simp only [List.cons_append, totalDelta_cons, hg]
      rw [ih (fun x hx => hpre x (by simp [hx]))]

theorem attemptsGo_eq (p : RetryPolicy) (resp : Nat → Nat) :
    ∀ (budget k : Nat), attemptsGo p resp budget k = k + consecutiveBad p resp k budget := by
  intro budget
  induction budget with
  | zero =>
      intro k
      simp [attemptsGo, consecutiveBad]
  | succ n ih =>
      intro k
      simp only [attemptsGo, consecutiveBad]
      by_cases h : resp k ∈ p.status_forcelist
      · rw [if_pos h, if_pos h, ih]
        omega
      · rw [if_neg h, if_neg h]
        omega

theorem consecutiveBad_le (p : RetryPolicy) (resp : Nat → Nat) :
    ∀ (budget k : Nat), consecutiveBad p resp k budget ≤ budget := by
  intro budget
  induction budget with
  | zero =>
      intro k
      simp [consecutiveBad]
  | succ n ih =>
      intro k
      simp only [consecutiveBad]
      by_cases h : resp k ∈ p.status_forcelist
      · rw [if_pos h]
        have := ih (k + 1)
        omega
      · rw [if_neg h]
        omega

theorem totalDelta_timeouts (cfg : Config) (files : List FileEnv) :
    ((totalDelta cfg files).eff.gets.all (fun g => g.2.timeout == 10)) = true ∧
      ((totalDelta cfg files).eff.posts.all (fun q => q.2.timeout == 10)) = true := by
  induction files with
  | nil => simp [totalDelta]
  | cons f rest ih =>
      have hper : ((fileDelta cfg f).eff.gets.all (fun g => g.2.timeout == 10)) = true ∧
          ((fileDelta cfg f).eff.posts.all (fun q => q.2.timeout == 10)) = true := by
        rw [fileDelta_gets, fileDelta_posts]
        constructor
        · split <;> simp [getReqOf]
        · split <;> simp [payloadOf]
      rw [totalDelta_cons]
      by_cases hab : abortsF f = true
      · rw [if_pos hab]
        exact hper
      · rw [if_neg hab]
        constructor
        · rw [merge_gets, List.all_append, hper.1, ih.1]
          rfl
        · rw [merge_posts, List.all_append, hper.2, ih.2]
          rfl

theorem pd_state_eq (cfg : Config) (files : List FileEnv) :
    (process_directory cfg files).state =
      { stats := (totalDelta cfg files).stats
        duplicate_parents := (totalDelta cfg files).parents
        eff := (totalDelta cfg files).eff } := by
  rw [process_directory_state]
  cases h : totalDelta cfg files with
  | mk stats parents eff abort =>
      cases stats
      cases eff
      simp [applyDelta]

/-- Pruned subtrees are never visited: every file the walk yields has no
excluded directory name anywhere on its path below the root. -/
theorem walkTree_no_excluded (excludes : List String) (t : DirTree) :
    ∀ p f, (p, f) ∈ walkTree excludes t → ∀ d ∈ p, d ∉ excludes := by
  refine walkTree.induct excludes
    (fun t => ∀ p f, (p, f) ∈ walkTree excludes t → ∀ d ∈ p, d ∉ excludes) ?_ t
  intro n fs ds ih p f hmem d hdp hde
  rw [walkTree, List.mem_append] at hmem
  rcases hmem with hmem | hmem
  · simp only [List.mem_map] at hmem
    obtain ⟨x, _, hx⟩ := hmem
    injection hx with h1 h2
    subst h1
    simp at hdp
  · simp only [List.mem_flatMap, List.mem_map] at hmem
    obtain ⟨⟨t', ht'⟩, _, ⟨pf, hpf, heq⟩⟩ := hmem
    injection heq with h1 h2
    subst h1
    rcases List.mem_cons.mp hdp with hd1 | hd2
    · have hde' : t'.name ∈ excludes := by
        rw [← hd1]
        exact hde
      unfold pruneDirs at ht'
      split at ht'
      · rename_i hexc
        rw [hexc] at hde'
        simp at hde'
      · have hfil := List.of_mem_filter ht'
        simp at hfil
        exact hfil hde'
    · exact ih ⟨t', ht'⟩ pf.1 pf.2 hpf d hd2 hde

/-! ### Concrete scan environments used by counterexamples and witnesses -/

def cfgEx : Config := {}

def cfgDry : Config := { dryRun := true }

/-- A file whose registry record matches its own path exactly. -/
def fileC1a : FileEnv :=
  { filename := "a.txt", dirPath := [], dirName := "root", fullPath := "root/a.txt"
    fate := { response := ValidateResult.ok 200 (JsonBody.arr
      [{ full_path := some "root/a.txt", action := some "", action_args := some "" }]) } }

/-- A new file whose submission POST fails. -/
def fileC1b : FileEnv :=
  { filename := "b.txt", dirPath := [], dirName := "root", fullPath := "root/b.txt"
    fate := { response := ValidateResult.ok 200 (JsonBody.arr []), postRaises := true } }

/-- An unreadable file (hashing fails). -/
def fileC2 : FileEnv :=
  { filename := "c.bin", dirPath := [], dirName := "root", fullPath := "root/c.bin"
    fate := { content := none } }

def fileC4good : FileEnv :=
  { filename := "g.txt", dirPath := [], dirName := "root", fullPath := "root/g.txt"
    fate := {} }

/-- A file whose validation gets HTTP 401. -/
def fileC4auth : FileEnv :=
  { filename := "h.txt", dirPath := [], dirName := "root", fullPath := "root/h.txt"
    fate := { response := ValidateResult.ok 401 (JsonBody.arr []) } }

def fileC4after : FileEnv :=
  { filename := "i.txt", dirPath := [], dirName := "root", fullPath := "root/i.txt"
    fate := {} }

/-- A duplicate with a remote-directed delete. -/
def fileC5 : FileEnv :=
  { filename := "d.txt", dirPath := [], dirName := "root", fullPath := "root/d.txt"
    fate := { response := ValidateResult.ok 200 (JsonBody.arr
      [{ full_path := some "other/d.txt", action := some "rm", action_args := some "" }]) } }

/-- A duplicate with a remote-directed delete, operator answering "n". -/
def fileC6w : FileEnv :=
  { filename := "y.txt", dirPath := [], dirName := "root", fullPath := "root/y.txt"
    fate :=
      { response := ValidateResult.ok 200 (JsonBody.arr
          [{ full_path := some "other/y.txt", action := some "rm", action_args := some "" }]),
        confirm := some "n" } }

def treeC7 : DirTree :=
  DirTree.node "root" ["top.txt"]
    [DirTree.node "skip" ["hidden.txt"] [], DirTree.node "keep" ["k.txt"] []]

def cfgC7 : Config := { excludes := ["skip"] }

def fileC8w : FileEnv :=
  { filename := "u.bin", dirPath := [], dirName := "root", fullPath := "root/u.bin"
    fate := { content := none } }

def fileC8b : FileEnv :=
  { filename := "v.txt", dirPath := [], dirName := "root", fullPath := "root/v.txt"
    fate := {} }

/-- A file answered with HTTP 403 whose submission then fails. -/
def fileC9 : FileEnv :=
  { filename := "e.txt", dirPath := [], dirName := "root", fullPath := "root/e.txt"
    fate := { response := ValidateResult.ok 403 JsonBody.nonArray, postRaises := true } }

/-- A file answered with HTTP 404. -/
def fileC9w : FileEnv :=
  { filename := "w.txt", dirPath := [], dirName := "root", fullPath := "root/w.txt"
    fate := { response := ValidateResult.ok 404 (JsonBody.arr []) } }

/-! ### The claims -/

/-- Claim C1, counterexample: in a scan with one exact-path-match file and
one new file whose submission POST fails, the final `new + duplicate` is 1
while two files were successfully validated (the exact path match is
counted under `path_match`, not `duplicate`), and the new file is counted
both under `new` and under `failed` — so the claimed equation and the
claimed disjointness from `failed` both fail on the code. -/
theorem claim1_counterexample :
    ¬((process_directory cfgEx [fileC1a, fileC1b]).state.stats.new +
        (process_directory cfgEx [fileC1a, fileC1b]).state.stats.duplicate =
        successfullyValidated [fileC1a, fileC1b]) ∧
    (fileC1b.key, "new") ∈ (process_directory cfgEx [fileC1a, fileC1b]).state.eff.counted ∧
    (fileC1b.key, "failed") ∈ (process_directory cfgEx [fileC1a, fileC1b]).state.eff.counted := by
  decide

/-- Claim C1, amended: for every scan, `new + duplicate + path_match`
equals the number of files successfully validated (response received and
classified); no file failing at hashing or validation contributes to that
sum; and `failed` counts exactly the hash/validation failures plus the
submission failures — so a file contributing to the sum can additionally
be counted under `failed` only through a failed submission. -/
theorem claim1_amended_thm (cfg : Config) (files : List FileEnv) :
    (process_directory cfg files).state.stats.new +
      (process_directory cfg files).state.stats.duplicate +
      (process_directory cfg files).state.stats.path_match =
      successfullyValidated files ∧
    (processedFiles files).countP (fun f => classified f && validationFailure f) = 0 ∧
    (process_directory cfg files).state.stats.failed =
      (processedFiles files).countP (fun f => validationFailure f) +
        (processedFiles files).countP (fun f => submitCond cfg f && f.fate.postRaises) := by
  refine ⟨?_, ?_, ?_⟩
  · rw [pd_state_eq]
    exact totalDelta_sum cfg files
  · apply List.countP_eq_zero.mpr
    intro f _
    simp [classified_not_valfail f]
  · rw [pd_state_eq]
    exact totalDelta_failed cfg files

/-- Claim C2, counterexample: an unreadable file outside preview mode
still exists on disk and is not an exact path match, yet no submission is
issued for it — the claimed "if and only if" fails in the if direction. -/
theorem claim2_counterexample :
    cfgEx.dryRun = false ∧ existsAtSubmit cfgEx fileC2 = true ∧
    exactOf fileC2 = false ∧
    (process_directory cfgEx [fileC2]).state.eff.posts = [] := by
  decide

/-- Claim C2, amended: the submissions of a scan are exactly one POST per
processed file satisfying `submitCond` (preview off, hash and validation
succeeded with a status other than 401, the file still exists after any
action, and the outcome is not an exact path match); an exact path match
is always a duplicate and never satisfies `submitCond`. -/
theorem claim2_amended_thm (cfg : Config) (files : List FileEnv) (f : FileEnv) :
    (process_directory cfg files).state.eff.posts =
      (processedFiles files).filterMap
        (fun g => if submitCond cfg g then some (g.key, payloadOf cfg g) else none) ∧
    (exactOf f && !isDupOf f) = false ∧
    (exactOf f && submitCond cfg f) = false := by
  refine ⟨?_, ?_, ?_⟩
  · rw [pd_state_eq]
    exact totalDelta_posts cfg files
  · cases hex : exactOf f
    · rfl
    · simp [exactOf_dup f hex]
  · cases hex : exactOf f
    · rfl
    · unfold submitCond
      simp [hex]

/-- Claim C3, counterexample: the session's `Retry(total=3, ...)` allows 3
retries after the initial request, so a request answered 503 on every
attempt is tried 4 times, not at most 3. -/
theorem claim3_counterexample :
    attemptsTaken retries (fun _ => 503) = 4 ∧
    ¬(attemptsTaken retries (fun _ => 503) ≤ 3) := by
  decide

/-- Claim C3, amended: requests are attempted `1 + (number of consecutive
forcelist statuses, capped by the 3 allowed retries)` times — hence at
most 4 attempts; the backoff factor is 1 with the exponential doubling
schedule; status-triggered retries happen only for 500/502/503/504; and
every validation GET and submission POST of every scan carries a
10-second timeout. -/
theorem claim3_amended_thm (resp : Nat → Nat) (k : Nat) (cfg : Config)
    (files : List FileEnv) :
    attemptsTaken retries resp = 1 + consecutiveBad retries resp 1 3 ∧
    attemptsTaken retries resp ≤ 4 ∧
    retries.backoff_factor = 1 ∧
    retries.status_forcelist = [500, 502, 503, 504] ∧
    retries.allowed_methods = ["GET", "POST"] ∧
    get_backoff_time retries (k + 2) = 2 ^ (k + 1) ∧
    ((process_directory cfg files).state.eff.gets.all (fun g => g.2.timeout == 10)) = true ∧
    ((process_directory cfg files).state.eff.posts.all (fun q => q.2.timeout == 10)) = true := by
  refine ⟨?_, ?_, rfl, rfl, rfl, ?_, ?_, ?_⟩
  · rw [attemptsTaken, attemptsGo_eq]
    rfl
  · rw [attemptsTaken, attemptsGo_eq]
    have hle := consecutiveBad_le retries resp retries.total 1
    have ht : retries.total = 3 := rfl
    omega
  · have hk : k + 2 - 1 = k + 1 := by omega
    rw [get_backoff_time, if_neg (by omega)]
    have hb : retries.backoff_factor = 1 := rfl
    rw [hb, hk, Nat.one_mul]
  · rw [pd_state_eq]
    exact (totalDelta_timeouts cfg files).1
  · rw [pd_state_eq]
    exact (totalDelta_timeouts cfg files).2

/-- Claim C4, counterexample: with a 401 on the second of three files, the
scan stops (the third file is never hashed) but — contrary to the claim —
no textual summary is produced at all: the line-187 `return` skips the
summary block. -/
theorem claim4_counterexample :
    (process_directory cfgEx [fileC4good, fileC4auth, fileC4after]).summary = none ∧
    (process_directory cfgEx [fileC4good, fileC4auth, fileC4after]).state.eff.hashed =
      [fileC4good.key, fileC4auth.key] := by
  decide

/-- Claim C4, amended: if a file's validation returns HTTP 401, the scan
state equals the state after processing only the files up to and
including that file — nothing after it is processed — and the scan
terminates without producing the textual summary. -/
theorem claim4_amended_thm (cfg : Config) (pre post : List FileEnv) (f : FileEnv)
    (hpre : ∀ g ∈ pre, abortsF g = false) (hf : abortsF f = true) :
    (process_directory cfg (pre ++ f :: post)).state =
      (process_directory cfg (pre ++ [f])).state ∧
    (process_directory cfg (pre ++ f :: post)).summary = none ∧
    processedFiles (pre ++ f :: post) = pre ++ [f] := by
  refine ⟨?_, ?_, processedFiles_append pre post f hpre hf⟩
  · rw [process_directory_state, process_directory_state,
      totalDelta_append cfg pre post f hpre hf]
  · rw [process_directory_summary]
    have hany : (pre ++ f :: post).any (fun g => abortsF g) = true :=
      List.any_eq_true.mpr ⟨f, by simp, hf⟩
    simp [hany]

theorem claim4_witness :
    (∀ g ∈ [fileC4good], abortsF g = false) ∧ abortsF fileC4auth = true ∧
    ((process_directory cfgEx ([fileC4good] ++ fileC4auth :: [fileC4after])).state =
        (process_directory cfgEx ([fileC4good] ++ [fileC4auth])).state ∧
      (process_directory cfgEx ([fileC4good] ++ fileC4auth :: [fileC4after])).summary =
        none ∧
      processedFiles ([fileC4good] ++ fileC4auth :: [fileC4after]) =
        [fileC4good] ++ [fileC4auth]) :=
  ⟨by decide, by decide,
    claim4_amended_thm cfgEx [fileC4good] [fileC4after] fileC4auth (by decide) (by decide)⟩

/-- Claim C5, confirmed: in preview mode a scan performs no filesystem
mutation, issues no submission POST, and never increments
`actions_taken`, whatever the registry answers. -/
theorem claim5_thm (cfg : Config) (files : List FileEnv) (h : cfg.dryRun = true) :
    (process_directory cfg files).state.eff.fsOps = [] ∧
    (process_directory cfg files).state.eff.posts = [] ∧
    (process_directory cfg files).state.stats.actions_taken = 0 := by
  have hd := totalDelta_dry cfg files h
  rw [pd_state_eq]
  exact ⟨hd.2.1, hd.1, hd.2.2⟩

theorem claim5_witness :
    cfgDry.dryRun = true ∧
    ((process_directory cfgDry [fileC5]).state.eff.fsOps = [] ∧
     (process_directory cfgDry [fileC5]).state.eff.posts = [] ∧
     (process_directory cfgDry [fileC5]).state.stats.actions_taken = 0) :=
  ⟨rfl, claim5_thm cfgDry [fileC5] rfl⟩

/-- Claim C6, counterexample: end-of-input at the delete confirmation
(`input()` raising `EOFError`) is caught by the generic handler and
reported as an action *failure* (the line-126 error log), not as the
claimed decline. -/
theorem claim6_counterexample :
    (execute_action "rm" "" "root/x.txt" false none false).report = ActionReport.failed ∧
    ActionReport.failed ≠ ActionReport.declined := by
  decide

/-- Claim C6, amended: with force disabled, any confirmation *line* other
than a case-insensitive "y" (including the empty line) leaves the file on
disk and is reported as a decline with return value `False`; end-of-input
likewise returns `False`, removes nothing and performs no filesystem
mutation — the file stays on disk — but is reported as a failure, not a
decline; and the caller increments `actions_taken` only when
`execute_action` returns `True`. -/
theorem claim6_amended_thm (args path : String) (raises : Bool) (s : String)
    (cfg : Config) (f : FileEnv) (h : lowerStr s ≠ "y") :
    execute_action "rm" args path false (some s) raises =
      { returned := false, report := ActionReport.declined, removedSource := false
        mutations := [] } ∧
    execute_action "rm" args path false none raises =
      { returned := false, report := ActionReport.failed, removedSource := false
        mutations := [] } ∧
    (fileDelta cfg f).stats.actions_taken =
      (match actionResult cfg f with
       | some r => if r.returned then 1 else 0
       | none => 0) := by
  refine ⟨?_, rfl, ?_⟩
  · show (if lowerStr s ≠ "y" then
        (⟨false, ActionReport.declined, false, []⟩ : ActionOutcome)
      else if raises then ⟨false, ActionReport.failed, false, []⟩
      else ⟨true, ActionReport.performed, true, [FsOp.delete path]⟩) =
      { returned := false, report := ActionReport.declined, removedSource := false
        mutations := [] }
    rw [if_pos h]
  · rw [fileDelta_actions]
    cases har : actionResult cfg f with
    | none => simp [Option.elim]
    | some r => simp [Option.elim]

theorem claim6_witness :
    (lowerStr "n" ≠ "y") ∧
    (execute_action "rm" "/dst" "root/y.txt" false (some "n") false =
      { returned := false, report := ActionReport.declined, removedSource := false
        mutations := [] } ∧
     execute_action "rm" "/dst" "root/y.txt" false none false =
       { returned := false, report := ActionReport.failed, removedSource := false
         mutations := [] } ∧
     (fileDelta cfgEx fileC6w).stats.actions_taken =
       (match actionResult cfgEx fileC6w with
        | some r => if r.returned then 1 else 0
        | none => 0)) :=
  ⟨by decide, claim6_amended_thm "/dst" "root/y.txt" false "n" cfgEx fileC6w (by decide)⟩

/-- Claim C7, confirmed: a file lying below a directory whose bare name is
excluded — at any depth — is never hashed, never validated against the
registry, and never the subject of any counter increment. -/
theorem claim7_thm (cfg : Config) (root : String) (t : DirTree)
    (fate : FileKey → FileFate) (p : List String) (name d : String)
    (hd : d ∈ p) (hde : d ∈ cfg.excludes) :
    (p, name) ∉ (scanTree cfg root t fate).state.eff.hashed ∧
    (∀ e ∈ (scanTree cfg root t fate).state.eff.gets, e.1 ≠ (p, name)) ∧
    (∀ e ∈ (scanTree cfg root t fate).state.eff.counted, e.1 ≠ (p, name)) := by
  have hwalk : (p, name) ∉ walkTree cfg.excludes t := fun hmem =>
    walkTree_no_excluded cfg.excludes t p name hmem d hd hde
  have hkeys : ∀ g ∈ (walkTree cfg.excludes t).map
      (fun k => mkFileEnv root k (fate k)), g.key ≠ (p, name) := by
    intro g hg
    rw [List.mem_map] at hg
    obtain ⟨k, hk, hgk⟩ := hg
    rw [← hgk]
    intro hkp
    rw [show (mkFileEnv root k (fate k)).key = k from rfl] at hkp
    rw [hkp] at hk
    exact hwalk hk
  unfold scanTree
  rw [pd_state_eq]
  refine ⟨?_, ?_, ?_⟩
  · intro hmem
    obtain ⟨g, hg, hk⟩ := totalDelta_hashed_keys cfg _ _ hmem
    exact hkeys g hg hk.symm
  · intro e he
    obtain ⟨g, hg, hk⟩ := totalDelta_gets_keys cfg _ e he
    rw [hk]
    exact hkeys g hg
  · intro e he
    obtain ⟨g, hg, hk⟩ := totalDelta_counted_keys cfg _ e he
    rw [hk]
    exact hkeys g hg

theorem claim7_witness :
    ("skip" ∈ ["skip"]) ∧ ("skip" ∈ cfgC7.excludes) ∧
    ((["skip"], "hidden.txt") ∉
        (scanTree cfgC7 "root" treeC7 (fun _ => {})).state.eff.hashed ∧
      (∀ e ∈ (scanTree cfgC7 "root" treeC7 (fun _ => {})).state.eff.gets,
        e.1 ≠ (["skip"], "hidden.txt")) ∧
      (∀ e ∈ (scanTree cfgC7 "root" treeC7 (fun _ => {})).state.eff.counted,
        e.1 ≠ (["skip"], "hidden.txt"))) :=
  ⟨by decide, by decide,
    claim7_thm cfgC7 "root" treeC7 (fun _ => {}) ["skip"] "hidden.txt" "skip"
      (by decide) (by decide)⟩

/-- Claim C8, confirmed: an existing but unreadable file makes `get_md5`
return the failure signal instead of raising; the loop then increments
only `failed` for that file (and records no GET, POST, action, or other
counter) and continues with the remaining files instead of aborting. -/
theorem claim8_thm (cfg : Config) (st : ScanState) (f : FileEnv) (rest : List FileEnv)
    (he : f.fate.existsAtWalk = true) (hc : f.fate.content = none) :
    get_md5 cfg.hashFn f.fate.content = none ∧
    fileDelta cfg f =
      { stats := { failed := 1 }
        eff := { hashed := [f.key], counted := [(f.key, "failed")] } } ∧
    scanFiles cfg st (f :: rest) = scanFiles cfg (applyDelta st (fileDelta cfg f)) rest := by
  have h2 : fileDelta cfg f =
      { stats := { failed := 1 }
        eff := { hashed := [f.key], counted := [(f.key, "failed")] } } := by
    simp [fileDelta, he, hc, get_md5]
  refine ⟨by rw [hc]; rfl, h2, ?_⟩
  have hab : (fileDelta cfg f).abort = false := by rw [h2]
  simp only [scanFiles, processFile, hab, Bool.false_eq_true, if_false]

theorem claim8_witness :
    (fileC8w.fate.existsAtWalk = true ∧ fileC8w.fate.content = none) ∧
    (get_md5 cfgEx.hashFn fileC8w.fate.content = none ∧
     fileDelta cfgEx fileC8w =
       { stats := { failed := 1 }
         eff := { hashed := [fileC8w.key], counted := [(fileC8w.key, "failed")] } } ∧
     scanFiles cfgEx {} (fileC8w :: [fileC8b]) =
       scanFiles cfgEx (applyDelta {} (fileDelta cfgEx fileC8w)) [fileC8b]) :=
  ⟨⟨rfl, rfl⟩, claim8_thm cfgEx {} fileC8w [fileC8b] rfl rfl⟩

/-- Claim C9, counterexample: a file answered with HTTP 403 whose
subsequent submission POST raises does increment `failed` — so it is not
true that such a file increments no counter at all (the submission, which
is indeed still issued, can add to `failed`). -/
theorem claim9_counterexample :
    fileC9.fate.response = ValidateResult.ok 403 JsonBody.nonArray ∧
    (process_directory cfgEx [fileC9]).state.stats.failed = 1 ∧
    (process_directory cfgEx [fileC9]).state.eff.posts.length = 1 := by
  decide

/-- Claim C9, amended: a visited, hashable file whose validation status is
neither 200 nor 401 increments none of `new`, `duplicate`, `path_match`;
outside preview mode, while the file exists, a submission carrying
`duplicate: false` is still issued for it, and `failed` is incremented
exactly when that submission fails. -/
theorem claim9_amended_thm (cfg : Config) (f : FileEnv) (status : Nat) (body : JsonBody)
    (he : f.fate.existsAtWalk = true) (hh : f.fate.content.isSome = true)
    (hr : f.fate.response = ValidateResult.ok status body)
    (h200 : status ≠ 200) (h401 : status ≠ 401) :
    (fileDelta cfg f).stats.new = 0 ∧
    (fileDelta cfg f).stats.duplicate = 0 ∧
    (fileDelta cfg f).stats.path_match = 0 ∧
    (fileDelta cfg f).eff.posts =
      (if !cfg.dryRun && !f.fate.vanishes then [(f.key, payloadOf cfg f)] else []) ∧
    (payloadOf cfg f).duplicate = false ∧
    (fileDelta cfg f).stats.failed =
      (if !cfg.dryRun && !f.fate.vanishes && f.fate.postRaises then 1 else 0) := by
  have hok : respOk200 f = false := by
    unfold respOk200
    rw [hr]
    simp [h200]
  have herr : respErr f = false := by
    unfold respErr
    rw [hr]
  have hauth : respAuthFail f = false := by
    unfold respAuthFail
    rw [hr]
    simp [h401]
  have hdl : respDupList f = none := by
    unfold respDupList
    rw [hr]
    cases body with
    | nonArray => rfl
    | arr items =>
        cases items with
        | nil => rfl
        | cons i is => simp [h200]
  have hdup : isDupOf f = false := by
    unfold isDupOf
    rw [hdl]
    rfl
  have hex : exactOf f = false := by
    unfold exactOf
    rw [hdl]
  have har : actionResult cfg f = none := by
    unfold actionResult
    simp [hdup]
  have hrb : removedBy cfg f = false := by
    unfold removedBy
    rw [har]
  have hsub : submitCond cfg f = (!cfg.dryRun && !f.fate.vanishes) := by
    unfold submitCond existsAtSubmit visited hashable
    rw [hrb]
    simp [he, hh, herr, hauth, hex]
  have hvf : validationFailure f = false := by
    unfold validationFailure visited hashable
    simp [he, hh, herr]
  refine ⟨?_, ?_, ?_, ?_, ?_, ?_⟩
  · rw [fileDelta_eq]
    simp [deltaSpec, isNewOf, hok]
  · rw [fileDelta_eq]
    simp [deltaSpec, hdup]
  · rw [fileDelta_eq]
    simp [deltaSpec, hex]
  · rw [fileDelta_posts, hsub]
  · simp [payloadOf, hdup]
  · rw [fileDelta_failed, hvf, hsub]
    simp [Bool.and_assoc]

theorem claim9_witness :
    (fileC9w.fate.existsAtWalk = true ∧ fileC9w.fate.content.isSome = true ∧
     fileC9w.fate.response = ValidateResult.ok 404 (JsonBody.arr []) ∧
     (404 : Nat) ≠ 200 ∧ (404 : Nat) ≠ 401) ∧
    ((fileDelta cfgEx fileC9w).stats.new = 0 ∧
     (fileDelta cfgEx fileC9w).stats.duplicate = 0 ∧
     (fileDelta cfgEx fileC9w).stats.path_match = 0 ∧
     (fileDelta cfgEx fileC9w).eff.posts =
       (if !cfgEx.dryRun && !fileC9w.fate.vanishes
        then [(fileC9w.key, payloadOf cfgEx fileC9w)] else []) ∧
     (payloadOf cfgEx fileC9w).duplicate = false ∧
     (fileDelta cfgEx fileC9w).stats.failed =
       (if !cfgEx.dryRun && !fileC9w.fate.vanishes && fileC9w.fate.postRaises
        then 1 else 0)) :=
  ⟨⟨rfl, rfl, rfl, by decide, by decide⟩,
    claim9_amended_thm cfgEx fileC9w 404 (JsonBody.arr []) rfl rfl rfl
      (by decide) (by decide)⟩

/-- Claim C10, confirmed: the validation GETs of a scan are exactly one
per visited, hashable file in walk order (up to a 401 abort), a
characterization independent of preview mode — and flipping preview mode
leaves the GET trace unchanged. -/
theorem getReqOf_dry (cfg : Config) (b : Bool) (f : FileEnv) :
    getReqOf { cfg with dryRun := b } f = getReqOf cfg f := by
  unfold getReqOf md5Of
  cases f.fate.content <;> rfl

theorem expectedValidations_dry (cfg : Config) (files : List FileEnv) :
    expectedValidations { cfg with dryRun := true } files =
      expectedValidations { cfg with dryRun := false } files := by
  induction files with
  | nil => rfl
  | cons f rest ih =>
      simp only [expectedValidations]
      rw [ih, getReqOf_dry cfg true f, getReqOf_dry cfg false f]

theorem claim10_thm (cfg : Config) (files : List FileEnv) :
    (process_directory cfg files).state.eff.gets = expectedValidations cfg files ∧
    (process_directory { cfg with dryRun := true } files).state.eff.gets =
      (process_directory { cfg with dryRun := false } files).state.eff.gets := by
  have h1 : ∀ c : Config,
      (process_directory c files).state.eff.gets = expectedValidations c files := by
    intro c
    rw [pd_state_eq]
    exact totalDelta_gets c files
  exact ⟨h1 cfg, by rw [h1, h1, expectedValidations_dry cfg files]⟩

end Filizer
